import Mathlib

set_option maxRecDepth 2000

/-!
Verification of the chip8-rust interpreter (src/cpu.rs, src/terminal.rs).

Shallow embedding conventions:
* Machine integers (u8, u16, u64) are `Nat` with explicit reduction mod
  2^8 / 2^16 / 2^64 at the points where the Rust code can wrap.  Arithmetic
  overflow is modelled with wraparound (release-mode semantics, and the
  semantics the code itself relies on in `wrapping_sub`).
* Fixed arrays (`memory`, `stack`, `v`, `pixels`) are `List Nat`; reads use
  `List.getD _ _ 0` and writes use `List.set`.  Indexing that can be out of
  bounds in Rust (and would abort the process there) is modelled with
  `Option`: an out-of-bounds access yields `none`.
* The raw keyboard stream (`termion` stdin) is external input; it is
  modelled as the list of already-decoded events: each element is the
  `map_key` result of one raw key event (`none` for a raw event that maps
  to no hex key, e.g. Ctrl-C, which in the source only sets the exit flag).
* The random-byte source used by opcode Cxkk is modelled as an oracle
  stream `rng` carried in the state.
* `Terminal::render` performs physical output only and does not change any
  modelled state, so it is omitted from the state transition.
-/

/-- 64-bit rotate right, as in Rust `u64::rotate_right`: the rotate distance
is taken mod 64 and the result stays in the 64-bit range. -/
def rotr64 (n x : Nat) : Nat :=
  let s := x % 64
  ((n >>> s) ||| (n <<< (64 - s))) % 2 ^ 64

/-- The 64-bit row mask a sprite byte contributes, from terminal.rs line 82:
`u64::from_be(byte as u64).rotate_right(x as u32)`.  On the little-endian
hosts the code targets (its own unit tests pin this behaviour down),
`u64::from_be` byte-swaps, so `byte as u64` ends up in the top 8 bits:
`byte <<< 56`. -/
def spriteMask (byte x : Nat) : Nat :=
  rotr64 ((byte % 256) <<< 56) x

/-- The loop body of `Terminal::draw_sprite` (terminal.rs lines 78-86):
walks the sprite bytes, reducing the row mod 32 when it reaches 32, XORing
the rotated byte into the row and accumulating the collision flag. -/
def drawLoop (x : Nat) : List Nat → Nat → Bool → List Nat → Bool × List Nat
  | [], _, overwritten, pixels => (overwritten, pixels)
  | byte :: rest, row, overwritten, pixels =>
      let row' := if row ≥ 32 then row % 32 else row
      let old := pixels.getD row' 0
      let newLine := old ^^^ spriteMask byte x
      let overwritten' := overwritten || decide (old &&& newLine ≠ old)
      drawLoop x rest (row' + 1) overwritten' (pixels.set row' newLine)

/-- `Terminal::draw_sprite` (terminal.rs lines 74-92).  Returns the
collision flag (1 if any previously set pixel was unset, else 0) and the
updated framebuffer. -/
def drawSprite (x y : Nat) (sprite : List Nat) (pixels : List Nat) : Nat × List Nat :=
  let r := drawLoop x sprite y false pixels
  (if r.1 then 1 else 0, r.2)

/-- The first phase of `Terminal::check_if_pressed` (terminal.rs lines
95-100): if `expected` occurs in the unprocessed queue, drop everything up
to and including its first occurrence (`drain(0..=i)`) and report the
remaining suffix; otherwise `none`. -/
def queueAfterMatch (expected : Nat) : List Nat → Option (List Nat)
  | [] => none
  | k :: rest => if k = expected then some rest else queueAfterMatch expected rest

/-- The second phase of `Terminal::check_if_pressed` (terminal.rs lines
102-114): drain the raw stream; a decoded key equal to `expected` clears
the unprocessed queue and stops, a decoded non-match is appended to the
queue, an undecodable event is skipped.  Returns (found, queue, rest of
stream). -/
def drainStream (expected : Nat) : List Nat → List (Option Nat) → Bool × List Nat × List (Option Nat)
  | unprocessed, [] => (false, unprocessed, [])
  | unprocessed, e :: rest =>
      match e with
      | some key =>
          if key = expected then (true, [], rest)
          else drainStream expected (unprocessed ++ [key]) rest
      | none => drainStream expected unprocessed rest

/-- `Terminal::check_if_pressed` (terminal.rs lines 94-117). -/
def checkIfPressed (expected : Nat) (unprocessed : List Nat) (stream : List (Option Nat)) :
    Bool × List Nat × List (Option Nat) :=
  match queueAfterMatch expected unprocessed with
  | some rest => (true, rest, stream)
  | none => drainStream expected unprocessed stream

/-- `Terminal::wait_for_key_press` (terminal.rs lines 119-131): consume at
most one raw event; return its decoding (which may be `none`) and the rest
of the stream. -/
def waitForKeyPress : List (Option Nat) → Option Nat × List (Option Nat)
  | [] => (none, [])
  | e :: rest => (e, rest)

/-- The interpreter state: `CPU` fields from cpu.rs lines 29-39 together
with the modelled `Terminal` fields (pixels, unprocessed queue, input
stream) and the random oracle. -/
structure CPU where
  memory : List Nat
  stack : List Nat
  v : List Nat
  i : Nat
  dt : Nat
  st : Nat
  pc : Nat
  sp : Nat
  pixels : List Nat
  unprocessed : List Nat
  stream : List (Option Nat)
  rng : List Nat
  deriving DecidableEq, Repr

/-- One decoded instruction: four nibbles, cpu.rs line 8. -/
abbrev Instruction := Nat × Nat × Nat × Nat

/-- The 80-byte font table, cpu.rs lines 10-27. -/
def FONT : List Nat :=
  [0xF0, 0x90, 0x90, 0x90, 0xF0,
   0x20, 0x60, 0x20, 0x20, 0x70,
   0xF0, 0x10, 0xF0, 0x80, 0xF0,
   0xF0, 0x10, 0xF0, 0x10, 0xF0,
   0x90, 0x90, 0xF0, 0x10, 0x10,
   0xF0, 0x80, 0xF0, 0x10, 0xF0,
   0xF0, 0x80, 0xF0, 0x90, 0xF0,
   0xF0, 0x10, 0x20, 0x40, 0x40,
   0xF0, 0x90, 0xF0, 0x90, 0xF0,
   0xF0, 0x90, 0xF0, 0x10, 0xF0,
   0xF0, 0x90, 0xF0, 0x90, 0x90,
   0xE0, 0x90, 0xE0, 0x90, 0xE0,
   0xF0, 0x80, 0x80, 0x80, 0xF0,
   0xE0, 0x90, 0x90, 0x90, 0xE0,
   0xF0, 0x80, 0xF0, 0x80, 0xF0,
   0xF0, 0x80, 0xF0, 0x80, 0x80]

/-- `CPU::new` (cpu.rs lines 42-59): font in low memory, everything zeroed,
PC = 0x200.  The stream and rng oracles are parameters. -/
def newCPU (stream : List (Option Nat)) (rng : List Nat) : CPU :=
  { memory := FONT ++ List.replicate (4096 - 80) 0
    stack := List.replicate 16 0
    v := List.replicate 16 0
    i := 0
    dt := 0
    st := 0
    pc := 0x200
    sp := 0
    pixels := List.replicate 32 0
    unprocessed := []
    stream := stream
    rng := rng }

/-- `to_byte` (cpu.rs lines 274-276): `(a << 4) + b` on u8. -/
def toByte (a b : Nat) : Nat :=
  ((a <<< 4) % 256 + b) % 256

/-- `addr` (cpu.rs lines 278-280): `(a << 8) + (b << 4) + c` on u16. -/
def addr (a b c : Nat) : Nat :=
  ((a <<< 8) % 65536 + (b <<< 4) % 65536 + c) % 65536

/-- Wrapping u8 subtraction, as in Rust `u8::wrapping_sub`. -/
def wsub8 (a b : Nat) : Nat :=
  (a + (256 - b % 256)) % 256

/-- Wrapping u16 subtraction (release semantics of `self.pc -= 2`). -/
def wsub16 (a b : Nat) : Nat :=
  (a + (65536 - b % 65536)) % 65536

/-- Bounds-checked list store: Rust array indexing panics out of range. -/
def setMem (mem : List Nat) (a val : Nat) : Option (List Nat) :=
  if a < mem.length then some (mem.set a val) else none

/-- `CPU::shl_vx` (cpu.rs lines 192-196). -/
def shlVx (x : Nat) (s : CPU) : CPU :=
  let vx := s.v.getD x 0
  let v1 := s.v.set 0xF (if vx &&& 128 = 128 then 1 else 0)
  { s with v := v1.set x ((vx <<< 1) % 256) }

/-- `CPU::subn_vx_vy` (cpu.rs lines 198-203). -/
def subnVxVy (x y : Nat) (s : CPU) : CPU :=
  let vx := s.v.getD x 0
  let vy := s.v.getD y 0
  let v1 := s.v.set 0xF (if vy ≥ vx then 1 else 0)
  { s with v := v1.set x (wsub8 vy vx) }

/-- `CPU::shr_vx` (cpu.rs lines 205-209). -/
def shrVx (x : Nat) (s : CPU) : CPU :=
  let vx := s.v.getD x 0
  let v1 := s.v.set 0xF (if vx &&& 1 = 1 then 1 else 0)
  { s with v := v1.set x (vx >>> 1) }

/-- `CPU::sub_vx_vy` (cpu.rs lines 211-216). -/
def subVxVy (x y : Nat) (s : CPU) : CPU :=
  let vx := s.v.getD x 0
  let vy := s.v.getD y 0
  let v1 := s.v.set 0xF (if vx ≥ vy then 1 else 0)
  { s with v := v1.set x (wsub8 vx vy) }

/-- `CPU::add_vx_vy` (cpu.rs lines 218-223).  The flag is written before
the result, and the source expression is `(vx + vy % 256) as u8`, i.e.
`vx + (vy % 256)` truncated to 8 bits. -/
def addVxVy (x y : Nat) (s : CPU) : CPU :=
  let vx := s.v.getD x 0
  let vy := s.v.getD y 0
  let v1 := s.v.set 0xF (if vx + vy > 255 then 1 else 0)
  { s with v := v1.set x ((vx + vy % 256) % 256) }

/-- `CPU::call_addr` (cpu.rs lines 243-247): `stack[sp]` indexing is
bounds-checked (`none` = abort). -/
def callAddr (a b c : Nat) (s : CPU) : Option CPU := do
  let stack1 ← setMem s.stack s.sp s.pc
  some { s with stack := stack1, sp := (s.sp + 1) % 256, pc := addr a b c }

/-- `CPU::ret` (cpu.rs lines 249-252): `sp -= 1` wraps at 0 (and the stack
read is then out of bounds), `stack[sp]` indexing is bounds-checked. -/
def ret (s : CPU) : Option CPU := do
  let sp1 := wsub8 s.sp 1
  let top ← s.stack.get? sp1
  some { s with sp := sp1, pc := top }

/-- `CPU::ld_b_vx` (cpu.rs lines 254-259): BCD store at I, I+1, I+2. -/
def ldBVx (x : Nat) (s : CPU) : Option CPU := do
  let vx := s.v.getD x 0
  let m1 ← setMem s.memory s.i (vx / 100)
  let m2 ← setMem m1 (s.i + 1) (vx % 100 / 10)
  let m3 ← setMem m2 (s.i + 2) (vx % 10)
  some { s with memory := m3 }

/-- The loop of `CPU::ld_i_vx` (cpu.rs lines 262-264): store `count`
registers starting at register `j` into memory at `base + j` upward. -/
def storeRegsAux (v : List Nat) (base : Nat) : Nat → Nat → List Nat → Option (List Nat)
  | _, 0, mem => some mem
  | j, count + 1, mem => do
      let m ← setMem mem (base + j) (v.getD j 0)
      storeRegsAux v base (j + 1) count m

/-- `CPU::ld_i_vx` (cpu.rs lines 261-265). -/
def ldIVx (x : Nat) (s : CPU) : Option CPU := do
  let m ← storeRegsAux s.v s.i 0 (x + 1) s.memory
  some { s with memory := m }

/-- The loop of `CPU::ld_vx_i` (cpu.rs lines 268-270): load `count`
registers starting at register `j` from memory at `base + j` upward. -/
def loadRegsAux (mem : List Nat) (base : Nat) : Nat → Nat → List Nat → Option (List Nat)
  | _, 0, v => some v
  | j, count + 1, v => do
      let b ← mem.get? (base + j)
      loadRegsAux mem base (j + 1) count (v.set j b)

/-- `CPU::ld_vx_i` (cpu.rs lines 267-271). -/
def ldVxI (x : Nat) (s : CPU) : Option CPU := do
  let v1 ← loadRegsAux s.memory s.i 0 (x + 1) s.v
  some { s with v := v1 }

/-- `CPU::execute_instruction` (cpu.rs lines 88-184), with the match arms
rendered as a chain of guards in source order.  `none` models an aborting
run: the explicit `Unrecognized instruction` abort of the final arm, and
the implicit out-of-bounds aborts of stack/memory indexing. -/
def executeInstruction (inst : Instruction) (s0 : CPU) : Option CPU :=
  let (o, a, b, c) := inst
  -- Increment program counter to point to the next instruction
  let s := { s0 with pc := (s0.pc + 2) % 65536 }
  -- CLS
  if o = 0 ∧ a = 0 ∧ b = 0xE ∧ c = 0 then
    some { s with pixels := List.replicate 32 0 }
  -- RET
  else if o = 0 ∧ a = 0 ∧ b = 0xE ∧ c = 0xE then
    ret s
  -- JP addr
  else if o = 1 then some { s with pc := addr a b c }
  -- CALL addr
  else if o = 2 then callAddr a b c s
  -- SE Vx, byte
  else if o = 3 then
    some (if s.v.getD a 0 = toByte b c then { s with pc := (s.pc + 2) % 65536 } else s)
  -- SNE Vx, byte
  else if o = 4 then
    some (if s.v.getD a 0 ≠ toByte b c then { s with pc := (s.pc + 2) % 65536 } else s)
  -- SE Vx, Vy
  else if o = 5 ∧ c = 0 then
    some (if s.v.getD a 0 = s.v.getD b 0 then { s with pc := (s.pc + 2) % 65536 } else s)
  -- LD Vx, byte
  else if o = 6 then some { s with v := s.v.set a (toByte b c) }
  -- ADD Vx, byte
  else if o = 7 then
    some { s with v := s.v.set a ((s.v.getD a 0 + toByte b c) % 256) }
  -- LD Vx, Vy
  else if o = 8 ∧ c = 0 then some { s with v := s.v.set a (s.v.getD b 0) }
  -- OR Vx, Vy
  else if o = 8 ∧ c = 1 then
    some { s with v := s.v.set a (s.v.getD a 0 ||| s.v.getD b 0) }
  -- AND Vx, Vy
  else if o = 8 ∧ c = 2 then
    some { s with v := s.v.set a (s.v.getD a 0 &&& s.v.getD b 0) }
  -- XOR Vx, Vy
  else if o = 8 ∧ c = 3 then
    some { s with v := s.v.set a (s.v.getD a 0 ^^^ s.v.getD b 0) }
  -- ADD Vx, Vy
  else if o = 8 ∧ c = 4 then some (addVxVy a b s)
  -- SUB Vx, Vy
  else if o = 8 ∧ c = 5 then some (subVxVy a b s)
  -- SHR Vx {, Vy}
  else if o = 8 ∧ c = 6 then some (shrVx a s)
  -- SUBN Vx, Vy
  else if o = 8 ∧ c = 7 then some (subnVxVy a b s)
  -- SHL Vx {, Vy}
  else if o = 8 ∧ c = 0xE then some (shlVx a s)
  -- SNE Vx, Vy
  else if o = 9 ∧ c = 0 then
    some (if s.v.getD a 0 ≠ s.v.getD b 0 then { s with pc := (s.pc + 2) % 65536 } else s)
  -- SLD I, addr
  else if o = 0xA then some { s with i := addr a b c }
  -- JP V0, addr
  else if o = 0xB then some { s with pc := (s.v.getD 0 0 + addr a b c) % 65536 }
  -- RND Vx, byte
  else if o = 0xC then
    some { s with v := s.v.set a (s.rng.headD 0 % 256 &&& toByte b c), rng := s.rng.tail }
  -- DRW Vx, Vy, nibble
  else if o = 0xD then
    if s.i + c ≤ s.memory.length then
      let sprite := (s.memory.drop s.i).take c
      let r := drawSprite (s.v.getD a 0) (s.v.getD b 0) sprite s.pixels
      some { s with v := s.v.set 0xF r.1, pixels := r.2 }
    else none
  -- SKP Vx
  else if o = 0xE ∧ b = 9 ∧ c = 0xE then
    let r := checkIfPressed (s.v.getD a 0) s.unprocessed s.stream
    some { s with unprocessed := r.2.1, stream := r.2.2,
                  pc := if r.1 then (s.pc + 2) % 65536 else s.pc }
  -- SKNP Vx
  else if o = 0xE ∧ b = 0xA ∧ c = 1 then
    let r := checkIfPressed (s.v.getD a 0) s.unprocessed s.stream
    some { s with unprocessed := r.2.1, stream := r.2.2,
                  pc := if ¬r.1 then (s.pc + 2) % 65536 else s.pc }
  -- LD Vx, DT
  else if o = 0xF ∧ b = 0 ∧ c = 7 then some { s with v := s.v.set a s.dt }
  -- LD Vx, K
  else if o = 0xF ∧ b = 0 ∧ c = 0xA then
    let r := waitForKeyPress s.stream
    match r.1 with
    | some key => some { s with v := s.v.set a key, stream := r.2 }
    | none => some { s with pc := wsub16 s.pc 2, stream := r.2 }
  -- LD DT, Vx
  else if o = 0xF ∧ b = 1 ∧ c = 5 then some { s with dt := s.v.getD a 0 }
  -- LD ST, Vx
  else if o = 0xF ∧ b = 1 ∧ c = 8 then some { s with st := s.v.getD a 0 }
  -- ADD I, Vx
  else if o = 0xF ∧ b = 1 ∧ c = 0xE then some { s with i := (s.i + s.v.getD a 0) % 65536 }
  -- LD F, Vx
  else if o = 0xF ∧ b = 2 ∧ c = 9 then some { s with i := (s.v.getD a 0 &&& 0xF) * 5 % 65536 }
  -- LD B, Vx
  else if o = 0xF ∧ b = 3 ∧ c = 3 then ldBVx a s
  -- LD [I], Vx
  else if o = 0xF ∧ b = 5 ∧ c = 5 then ldIVx a s
  -- LD Vx, [I]
  else if o = 0xF ∧ b = 6 ∧ c = 5 then ldVxI a s
  -- SYS addr: ignored by modern interpreters
  else if o = 0 then some s
  -- Unrecognized instruction
  else none

/-- `CPU::read_instruction` (cpu.rs lines 77-86): both memory reads are
bounds-checked. -/
def readInstruction (s : CPU) : Option Instruction := do
  let firstByte ← s.memory.get? s.pc
  let secondByte ← s.memory.get? (s.pc + 1)
  some (firstByte >>> 4, firstByte &&& 0xF, secondByte >>> 4, secondByte &&& 0xF)

/-- `CPU::tick` (cpu.rs lines 61-71): execute one instruction, then
decrement each timer independently with a floor at zero (render changes no
modelled state). -/
def tick (s : CPU) : Option CPU := do
  let instruction ← readInstruction s
  let s1 ← executeInstruction instruction s
  some { s1 with dt := if s1.dt > 0 then s1.dt - 1 else s1.dt,
                 st := if s1.st > 0 then s1.st - 1 else s1.st }

/-- `CPU::load` (cpu.rs lines 73-75):
`self.memory[0x200..].clone_from_slice(data)`.  `clone_from_slice`
requires the two slices to have equal lengths and aborts otherwise. -/
def load (data : List Nat) (mem : List Nat) : Option (List Nat) :=
  if 0x200 ≤ mem.length ∧ data.length = mem.length - 0x200 then
    some (mem.take 0x200 ++ data)
  else none

/-! Small list toolkit used throughout. -/

theorem getD_set_self : ∀ (l : List Nat) (i a d : Nat), i < l.length → (l.set i a).getD i d = a
  | _ :: _, 0, _, _, _ => rfl
  | _ :: xs, i + 1, a, d, h => getD_set_self xs i a d (Nat.lt_of_succ_lt_succ h)

theorem getD_set_other : ∀ (l : List Nat) (i j a d : Nat), i ≠ j → (l.set i a).getD j d = l.getD j d
  | [], _, _, _, _, _ => rfl
  | _ :: _, 0, 0, _, _, h => absurd rfl h
  | _ :: _, 0, _ + 1, _, _, _ => rfl
  | _ :: _, _ + 1, 0, _, _, _ => rfl
  | _ :: xs, i + 1, j + 1, a, d, h =>
      getD_set_other xs i j a d (fun hij => h (by rw [hij]))

theorem set_getD_self : ∀ (l : List Nat) (i d : Nat), i < l.length → l.set i (l.getD i d) = l
  | _ :: _, 0, _, _ => rfl
  | x :: xs, i + 1, d, h =>
      congrArg (x :: ·) (set_getD_self xs i d (Nat.lt_of_succ_lt_succ h))

theorem get?_set_self : ∀ (l : List Nat) (i a : Nat), i < l.length → (l.set i a).get? i = some a
  | _ :: _, 0, _, _ => rfl
  | _ :: xs, i + 1, a, h => get?_set_self xs i a (Nat.lt_of_succ_lt_succ h)

/-! Claim C1: 8xy4 (ADD Vx,Vy). -/

/-- A state with VF = 0xFF and all other registers zero; the surrounding
arrays are irrelevant to the ALU opcodes and kept empty. -/
def addCexState : CPU :=
  { memory := [], stack := [], v := (List.replicate 16 0).set 15 255,
    i := 0, dt := 0, st := 0, pc := 0x200, sp := 0,
    pixels := [], unprocessed := [], stream := [], rng := [] }

/-- C1 counterexample: with x = y = 0xF and Vx = Vy = 0xFF, the sum 510
exceeds 255, yet after 8xy4 VF holds 0xFE (the stored sum), not the carry
flag 1 that the claim requires for every pair of register indices. -/
theorem C1_counterexample :
    (executeInstruction (8, 15, 15, 4) addCexState).map (fun t => t.v.getD 15 0) = some 254 ∧
      255 + 255 > 255 := by decide

/-- C1 (amended): for every destination index x ≠ 0xF (and any source y),
8xy4 sets VF to 1 iff a + b > 255 and Vx to (a + b) mod 256, where a, b
are the 8-bit values of Vx, Vy before execution.  (With x = 0xF the flag
is overwritten by the stored sum, see the counterexample and C10.) -/
theorem C1_add_vx_vy (s s' : CPU) (x y a b : Nat) (hv : s.v.length = 16)
    (hx : x < 16) (_hy : y < 16) (hxF : x ≠ 15)
    (ha : s.v.getD x 0 = a) (hb : s.v.getD y 0 = b) (hb' : b < 256)
    (hrun : executeInstruction (8, x, y, 4) s = some s') :
    s'.v.getD 15 0 = (if 255 < a + b then 1 else 0) ∧ s'.v.getD x 0 = (a + b) % 256 := by
  simp only [executeInstruction] at hrun
  norm_num at hrun
  subst hrun
  unfold addVxVy
  simp only
  constructor
  · rw [getD_set_other _ x 15 _ _ hxF, getD_set_self _ 15 _ _ (by simp [hv]), ha, hb]
  · rw [getD_set_self _ x _ _ (by simp [hv]; omega), ha, hb, Nat.mod_eq_of_lt hb']

/-- A state with V2 = 0xAA and V9 = 0x12 (the spec's concrete scenario). -/
def addWitState : CPU :=
  { memory := [], stack := [], v := ((List.replicate 16 0).set 2 0xAA).set 9 0x12,
    i := 0, dt := 0, st := 0, pc := 0x200, sp := 0,
    pixels := [], unprocessed := [], stream := [], rng := [] }

/-- The state after executing 8294 on `addWitState`. -/
def addWitState' : CPU :=
  { addWitState with pc := 514, v := (addWitState.v.set 15 0).set 2 188 }

/-- Witness for C1: instantiates the amended theorem at x = 2, y = 9,
a = 0xAA, b = 0x12 (V2 becomes 0xBC, VF becomes 0). -/
theorem C1_add_vx_vy_witness :
    addWitState'.v.getD 15 0 = (if 255 < 170 + 18 then 1 else 0) ∧
      addWitState'.v.getD 2 0 = (170 + 18) % 256 :=
  C1_add_vx_vy addWitState addWitState' 2 9 170 18 (by decide) (by decide) (by decide)
    (by decide) (by decide) (by decide) (by decide) (by decide)

/-! Claim C10: ALU flag writes with destination x = 0xF. -/

/-- C10: for the five flag-writing ALU opcodes with destination x = 0xF,
the flag stored into VF is then overwritten by the arithmetic result, so
after execution VF holds the result (computed from the pre-execution
register values), not the carry/borrow/shifted-out flag. -/
theorem C10_flag_overwritten (s : CPU) (y f b : Nat) (hv : s.v.length = 16)
    (hf : s.v.getD 15 0 = f) (hb : s.v.getD y 0 = b) :
    (executeInstruction (8, 15, y, 4) s).map (fun t => t.v.getD 15 0) = some ((f + b % 256) % 256) ∧
    (executeInstruction (8, 15, y, 5) s).map (fun t => t.v.getD 15 0) = some (wsub8 f b) ∧
    (executeInstruction (8, 15, y, 6) s).map (fun t => t.v.getD 15 0) = some (f >>> 1) ∧
    (executeInstruction (8, 15, y, 7) s).map (fun t => t.v.getD 15 0) = some (wsub8 b f) ∧
    (executeInstruction (8, 15, y, 14) s).map (fun t => t.v.getD 15 0) = some ((f <<< 1) % 256) := by
  refine ⟨?_, ?_, ?_, ?_, ?_⟩ <;>
  · simp only [executeInstruction, Nat.reduceEqDiff, reduceIte, and_false, false_and, and_true,
      true_and, and_self, Option.map_some', addVxVy, subVxVy, shrVx, subnVxVy, shlVx]
    rw [getD_set_self _ 15 _ _ (by simp [hv])]
    simp only [hf, hb]

/-- Witness for C10: with VF = 0xFF and V9 = 0x12, each of the five ALU
opcodes with destination 0xF leaves the arithmetic result in VF. -/
theorem C10_flag_overwritten_witness :
    (executeInstruction (8, 15, 9, 4) addCexState).map (fun t => t.v.getD 15 0) = some ((255 + 0 % 256) % 256) ∧
    (executeInstruction (8, 15, 9, 5) addCexState).map (fun t => t.v.getD 15 0) = some (wsub8 255 0) ∧
    (executeInstruction (8, 15, 9, 6) addCexState).map (fun t => t.v.getD 15 0) = some (255 >>> 1) ∧
    (executeInstruction (8, 15, 9, 7) addCexState).map (fun t => t.v.getD 15 0) = some (wsub8 0 255) ∧
    (executeInstruction (8, 15, 9, 14) addCexState).map (fun t => t.v.getD 15 0) = some ((255 <<< 1) % 256) :=
  C10_flag_overwritten addCexState 9 255 0 (by decide) (by decide) (by decide)

/-! Claim C3: program loading. -/

/-- C3 counterexample: the empty buffer has length 0 ≤ 3584, yet `load`
aborts on it (`clone_from_slice` requires the source to have exactly the
destination slice's length, 3584), contradicting "load does not fail for
any such buffer". -/
theorem C3_counterexample :
    load [] (List.replicate 4096 0) = none ∧ List.length ([] : List Nat) ≤ 3584 := by
  have h1 : (List.replicate 4096 (0 : Nat)).length = 4096 := List.length_replicate ..
  have h2 : ([] : List Nat).length = 0 := rfl
  constructor
  · unfold load
    rw [if_neg]
    rw [h1, h2]
    omega
  · exact Nat.zero_le 3584

/-- C3 (amended): `load` succeeds exactly on buffers of length exactly
3584 = 4096 − 512; such a buffer is copied verbatim starting at 0x200
(there are then no program-region bytes past its end); any other buffer
length makes `load` abort with a slice-length mismatch. -/
theorem C3_load (data mem : List Nat) (hm : mem.length = 4096) :
    (data.length = 3584 →
      load data mem = some (mem.take 0x200 ++ data) ∧
        ∀ k, k < 3584 → (mem.take 0x200 ++ data).getD (0x200 + k) 0 = data.getD k 0) ∧
    (data.length ≠ 3584 → load data mem = none) := by
  have hlen : (mem.take 0x200).length = 0x200 := by
    rw [List.length_take, hm]
    omega
  constructor
  · intro h3584
    constructor
    · unfold load
      rw [if_pos]
      exact ⟨by omega, by omega⟩
    · intro k _
      rw [List.getD_append_right _ _ _ _ (by rw [hlen]; omega), hlen]
      have hk : 0x200 + k - 0x200 = k := by omega
      rw [hk]
  · intro hne
    unfold load
    rw [if_neg]
    intro ⟨h1, h2⟩
    omega

/-- Witness for C3: a 3584-byte buffer loads verbatim; a 1-byte buffer
makes `load` abort. -/
theorem C3_load_witness :
    load (List.replicate 3584 7) (List.replicate 4096 0)
      = some ((List.replicate 4096 (0 : Nat)).take 0x200 ++ List.replicate 3584 7) ∧
    load [5] (List.replicate 4096 0) = none :=
  ⟨((C3_load (List.replicate 3584 7) (List.replicate 4096 0)
        (List.length_replicate ..)).1 (List.length_replicate ..)).1,
   (C3_load [5] (List.replicate 4096 0) (List.length_replicate ..)).2 (by decide)⟩

/-! Claim C6: opcode Fx0A (LD Vx, K). -/

/-- C6: executing Fx0A when `wait_for_key_press` yields no key (empty
stream, or a raw event that decodes to no hex key) leaves Vx — indeed the
whole register file — unchanged and leaves PC unchanged (the +2 of fetch
is undone by the −2 rewind, so the same instruction is retried); when a
key k is obtained, Vx = k and PC advances by 2. -/
theorem C6_wait_key (s : CPU) (x : Nat) (_hx : x < 16) (hv : s.v.length = 16)
    (hpc : s.pc + 2 < 65536) :
    (s.stream = [] → executeInstruction (0xF, x, 0, 0xA) s = some s) ∧
    (∀ rest, s.stream = none :: rest →
      executeInstruction (0xF, x, 0, 0xA) s = some { s with stream := rest }) ∧
    (∀ k rest, s.stream = some k :: rest →
      executeInstruction (0xF, x, 0, 0xA) s =
        some { s with v := s.v.set x k, stream := rest, pc := s.pc + 2 }) := by
  have hmod : (s.pc + 2) % 65536 = s.pc + 2 := Nat.mod_eq_of_lt hpc
  refine ⟨?_, ?_, ?_⟩
  · intro hstream
    simp only [executeInstruction, Nat.reduceEqDiff, reduceIte, and_false, false_and, and_true,
      true_and, and_self, hstream, waitForKeyPress]
    have : wsub16 ((s.pc + 2) % 65536) 2 = s.pc := by
      rw [hmod]
      unfold wsub16
      omega
    rw [this]
    cases s
    simp_all
  · intro rest hstream
    simp only [executeInstruction, Nat.reduceEqDiff, reduceIte, and_false, false_and, and_true,
      true_and, and_self, hstream, waitForKeyPress]
    have : wsub16 ((s.pc + 2) % 65536) 2 = s.pc := by
      rw [hmod]
      unfold wsub16
      omega
    rw [this]
  · intro k rest hstream
    simp only [executeInstruction, Nat.reduceEqDiff, reduceIte, and_false, false_and, and_true,
      true_and, and_self, hstream, waitForKeyPress]
    rw [hmod]

/-- A state whose stream holds one decodable key press (key 7). -/
def waitKeyState : CPU :=
  { memory := [], stack := [], v := List.replicate 16 0, i := 0, dt := 0, st := 0,
    pc := 0x200, sp := 0, pixels := [], unprocessed := [], stream := [some 7], rng := [] }

/-- The same state with an empty stream. -/
def waitKeyState0 : CPU := { waitKeyState with stream := [] }

/-- Witness for C6: with no pending event Fx0A leaves the state unchanged;
with key 7 pending it stores 7 in V3 and advances PC by 2. -/
theorem C6_wait_key_witness :
    executeInstruction (0xF, 3, 0, 0xA) waitKeyState0 = some waitKeyState0 ∧
    executeInstruction (0xF, 3, 0, 0xA) waitKeyState =
      some { waitKeyState with v := waitKeyState.v.set 3 7, stream := [], pc := waitKeyState.pc + 2 } :=
  ⟨(C6_wait_key waitKeyState0 3 (by decide) (by decide) (by decide)).1 rfl,
   (C6_wait_key waitKeyState 3 (by decide) (by decide) (by decide)).2.2 7 [] rfl⟩

/-! Claim C7: CALL / RET round trip. -/

/-- C7: from any state with SP < 16, CALL aaa pushes the already
incremented PC and jumps; a subsequent RET pops it, so PC ends at
(p + 2) mod 2^16 — the instruction following the CALL — and SP returns to
its pre-CALL value. -/
theorem C7_call_ret (s s1 s2 : CPU) (a b c : Nat)
    (hsp : s.sp < 16) (hstack : s.stack.length = 16)
    (hcall : executeInstruction (2, a, b, c) s = some s1)
    (hret : executeInstruction (0, 0, 0xE, 0xE) s1 = some s2) :
    s2.pc = (s.pc + 2) % 65536 ∧ s2.sp = s.sp := by
  have hcall' : executeInstruction (2, a, b, c) s =
      some { s with stack := s.stack.set s.sp ((s.pc + 2) % 65536), sp := (s.sp + 1) % 256, pc := addr a b c } := by
    simp only [executeInstruction, Nat.reduceEqDiff, reduceIte, and_false, false_and, and_true,
      true_and, and_self, callAddr, setMem]
    rw [if_pos (by rw [hstack]; exact hsp)]
    rfl
  rw [hcall'] at hcall
  have hs1 : s1 = { s with stack := s.stack.set s.sp ((s.pc + 2) % 65536), sp := (s.sp + 1) % 256, pc := addr a b c } :=
    (Option.some.inj hcall).symm
  subst hs1
  have hspmod : (s.sp + 1) % 256 = s.sp + 1 := Nat.mod_eq_of_lt (by omega)
  have hw : wsub8 ((s.sp + 1) % 256) 1 = s.sp := by
    rw [hspmod]
    unfold wsub8
    omega
  have hret' : executeInstruction (0, 0, 0xE, 0xE)
      { s with stack := s.stack.set s.sp ((s.pc + 2) % 65536), sp := (s.sp + 1) % 256, pc := addr a b c } =
      some { s with stack := s.stack.set s.sp ((s.pc + 2) % 65536), sp := s.sp, pc := (s.pc + 2) % 65536 } := by
    simp only [executeInstruction, Nat.reduceEqDiff, reduceIte, and_false, false_and, and_true,
      true_and, and_self, ret]
    rw [hw, get?_set_self _ _ _ (by rw [hstack]; exact hsp)]
    rfl
  rw [hret'] at hret
  rw [← Option.some.inj hret]
  exact ⟨rfl, rfl⟩

/-- A fresh-stack state for the CALL/RET witness. -/
def callState : CPU :=
  { memory := [], stack := List.replicate 16 0, v := [], i := 0, dt := 0, st := 0,
    pc := 0x200, sp := 0, pixels := [], unprocessed := [], stream := [], rng := [] }

/-- `callState` after CALL 0xAEF. -/
def callRetS1 : CPU :=
  { callState with stack := callState.stack.set 0 0x202, sp := 1, pc := 0xAEF }

/-- `callRetS1` after RET. -/
def callRetS2 : CPU := { callRetS1 with sp := 0, pc := 0x202 }

/-- Witness for C7: CALL 0xAEF from PC = 0x200 then RET ends with
PC = 0x202 and SP back at 0. -/
theorem C7_call_ret_witness :
    callRetS2.pc = (callState.pc + 2) % 65536 ∧ callRetS2.sp = callState.sp :=
  C7_call_ret callState callRetS1 callRetS2 0xA 0xE 0xF (by decide) (by decide)
    (by decide) (by decide)

/-! Claim C9: timer decrement in tick. -/

/-- C9: on every successful tick, after the fetched instruction executes,
the delay and the sound timer are updated independently of each other:
each timer that is positive decreases by exactly 1 and a timer at 0 stays
at 0; nothing else is changed by the timer step. -/
theorem C9_timers (s : CPU) (inst : Instruction) (s1 : CPU)
    (hread : readInstruction s = some inst)
    (hexec : executeInstruction inst s = some s1) :
    tick s = some { s1 with dt := if s1.dt > 0 then s1.dt - 1 else s1.dt,
                            st := if s1.st > 0 then s1.st - 1 else s1.st } := by
  unfold tick
  rw [hread]
  show (executeInstruction inst s).bind _ = _
  rw [hexec]
  rfl

/-- A two-byte memory holding the SYS no-op instruction 0x0000, with
DT = 5 and ST = 0. -/
def tickState : CPU :=
  { memory := [0, 0], stack := [], v := [], i := 0, dt := 5, st := 0,
    pc := 0, sp := 0, pixels := [], unprocessed := [], stream := [], rng := [] }

/-- `tickState` after the SYS no-op. -/
def tickS1 : CPU := { tickState with pc := 2 }

/-- Witness for C9: one tick of `tickState` executes the no-op and takes
DT from 5 to 4 while ST stays 0. -/
theorem C9_timers_witness :
    tick tickState = some { tickS1 with dt := if tickS1.dt > 0 then tickS1.dt - 1 else tickS1.dt,
                                        st := if tickS1.st > 0 then tickS1.st - 1 else tickS1.st } :=
  C9_timers tickState (0, 0, 0, 0) tickS1 (by decide) (by decide)

/-! Claim C5: check_if_pressed queue semantics. -/

theorem queueAfterMatch_found (expected : Nat) :
    ∀ (pre post : List Nat), expected ∉ pre →
      queueAfterMatch expected (pre ++ expected :: post) = some post
  | [], post, _ => by simp [queueAfterMatch]
  | k :: pre, post, hpre => by
      have hk : ¬(k = expected) := fun h => hpre (by simp [h])
      simp only [List.cons_append, queueAfterMatch, if_neg hk]
      exact queueAfterMatch_found expected pre post (fun h => hpre (by simp [h]))

theorem queueAfterMatch_none (expected : Nat) :
    ∀ (unp : List Nat), expected ∉ unp → queueAfterMatch expected unp = none
  | [], _ => rfl
  | k :: unp, h => by
      have hk : ¬(k = expected) := fun hh => h (by simp [hh])
      simp only [queueAfterMatch, if_neg hk]
      exact queueAfterMatch_none expected unp (fun hh => h (by simp [hh]))

theorem queueAfterMatch_of_mem (k : Nat) :
    ∀ (unp : List Nat), k ∈ unp → ∃ rest, queueAfterMatch k unp = some rest
  | [], h => absurd h (by simp)
  | q :: unp, h => by
      by_cases hq : q = k
      · exact ⟨unp, by simp [queueAfterMatch, hq]⟩
      · have : k ∈ unp := by
          rcases List.mem_cons.mp h with h1 | h1
          · exact absurd h1.symm hq
          · exact h1
        obtain ⟨rest, hrest⟩ := queueAfterMatch_of_mem k unp this
        exact ⟨rest, by simp [queueAfterMatch, hq, hrest]⟩

theorem drainStream_no_match (expected : Nat) :
    ∀ (evs : List (Option Nat)) (unp : List Nat), (∀ e ∈ evs, e ≠ some expected) →
      drainStream expected unp evs = (false, unp ++ evs.filterMap id, [])
  | [], unp, _ => by simp [drainStream]
  | none :: evs, unp, h => by
      simp only [drainStream, List.filterMap_cons_none]
      exact drainStream_no_match expected evs unp (fun e he => h e (by simp [he]))
  | some key :: evs, unp, h => by
      have hk : ¬(key = expected) := fun hh => h (some key) (by simp) (by rw [hh])
      simp only [drainStream, if_neg hk, List.filterMap_cons_some]
      rw [drainStream_no_match expected evs (unp ++ [key]) (fun e he => h e (by simp [he]))]
      simp

theorem drainStream_match (expected : Nat) :
    ∀ (evs1 : List (Option Nat)) (rest : List (Option Nat)) (unp : List Nat),
      (∀ e ∈ evs1, e ≠ some expected) →
      drainStream expected unp (evs1 ++ some expected :: rest) = (true, [], rest)
  | [], rest, unp, _ => by simp [drainStream]
  | none :: evs1, rest, unp, h => by
      simp only [List.cons_append, drainStream]
      exact drainStream_match expected evs1 rest unp (fun e he => h e (by simp [he]))
  | some key :: evs1, rest, unp, h => by
      have hk : ¬(key = expected) := fun hh => h (some key) (by simp) (by rw [hh])
      simp only [List.cons_append, drainStream, if_neg hk]
      exact drainStream_match expected evs1 rest (unp ++ [key]) (fun e he => h e (by simp [he]))

/-- C5: check_if_pressed queue behaviour.  (a) If `expected` occurs in the
unprocessed queue, the call returns true, removes exactly the entries up
to and including the first occurrence, leaves the later entries and the
raw stream untouched.  (b) Any key present in the queue makes a check for
it return true (an enqueued key stays available).  (c) If `expected` is
not queued but appears in the stream, everything decodable before it is
examined, the whole queue is cleared and true is returned, leaving the
stream after the match.  (d) If no match exists anywhere, false is
returned, the queue keeps all its old entries followed by every decoded
key of the stream, and each of those keys makes a later check (on the
drained stream) return true. -/
theorem C5_check_if_pressed (expected : Nat) (unp : List Nat) (stream : List (Option Nat)) :
    (∀ pre post, expected ∉ pre → unp = pre ++ expected :: post →
      checkIfPressed expected unp stream = (true, post, stream)) ∧
    (∀ k, k ∈ unp → (checkIfPressed k unp stream).1 = true) ∧
    (∀ evs1 rest, expected ∉ unp → (∀ e ∈ evs1, e ≠ some expected) →
      stream = evs1 ++ some expected :: rest →
      checkIfPressed expected unp stream = (true, [], rest)) ∧
    (expected ∉ unp → (∀ e ∈ stream, e ≠ some expected) →
      checkIfPressed expected unp stream = (false, unp ++ stream.filterMap id, []) ∧
        ∀ k, k ∈ unp ++ stream.filterMap id →
          (checkIfPressed k (unp ++ stream.filterMap id) []).1 = true) := by
  refine ⟨?_, ?_, ?_, ?_⟩
  · intro pre post hpre hunp
    subst hunp
    unfold checkIfPressed
    rw [queueAfterMatch_found expected pre post hpre]
  · intro k hk
    obtain ⟨rest, hrest⟩ := queueAfterMatch_of_mem k unp hk
    unfold checkIfPressed
    rw [hrest]
  · intro evs1 rest hnot hevs hstream
    subst hstream
    unfold checkIfPressed
    rw [queueAfterMatch_none expected unp hnot]
    exact drainStream_match expected evs1 rest unp hevs
  · intro hnot hevs
    constructor
    · unfold checkIfPressed
      rw [queueAfterMatch_none expected unp hnot]
      exact drainStream_no_match expected stream unp hevs
    · intro k hk
      obtain ⟨rest, hrest⟩ := queueAfterMatch_of_mem k _ hk
      unfold checkIfPressed
      rw [hrest]

/-- Witness for C5: with queue [1,2,5,7] a check for 5 consumes through
the first 5 and leaves [7]; with queue [1,2] and stream 3,5,9 the match on
5 clears the queue and leaves the 9 pending; with stream 3,⊥,4 and no
match the queue grows to [1,2,3,4] and 3 is still claimable later. -/
theorem C5_check_if_pressed_witness :
    checkIfPressed 5 [1, 2, 5, 7] [] = (true, [7], []) ∧
    checkIfPressed 5 [1, 2] [some 3, some 5, some 9] = (true, [], [some 9]) ∧
    (checkIfPressed 5 [1, 2] [some 3, none, some 4] = (false, [1, 2, 3, 4], []) ∧
      (checkIfPressed 3 [1, 2, 3, 4] []).1 = true) :=
  ⟨(C5_check_if_pressed 5 [1, 2, 5, 7] []).1 [1, 2] [7] (by decide) rfl,
   (C5_check_if_pressed 5 [1, 2] [some 3, some 5, some 9]).2.2.1 [some 3] [some 9]
     (by decide) (by decide) rfl,
   ((C5_check_if_pressed 5 [1, 2] [some 3, none, some 4]).2.2.2 (by decide) (by decide)).1,
   ((C5_check_if_pressed 5 [1, 2] [some 3, none, some 4]).2.2.2 (by decide) (by decide)).2
     3 (by decide)⟩

/-! Claim C4: sprite placement (row wrap mod 32, column wrap mod 64). -/

/-- The cumulative XOR mask that a sprite contributes to framebuffer row
ρ: byte number r of the sprite (drawn with top row y) contributes its
rotated mask exactly when (y + r) mod 32 = ρ. -/
def rowMasks (x : Nat) : List Nat → Nat → Nat → Nat
  | [], _, _ => 0
  | b :: rest, y, ρ => (if y % 32 = ρ then spriteMask b x else 0) ^^^ rowMasks x rest (y + 1) ρ

theorem rowMasks_congr (x ρ : Nat) :
    ∀ (sprite : List Nat) (y y' : Nat), y % 32 = y' % 32 →
      rowMasks x sprite y ρ = rowMasks x sprite y' ρ
  | [], _, _, _ => rfl
  | b :: rest, y, y', h => by
      simp only [rowMasks, h]
      rw [rowMasks_congr x ρ rest (y + 1) (y' + 1) (by omega)]

/-- The row index reduction at the top of the draw loop is reduction
mod 32. -/
theorem rowRed (row : Nat) : (if row ≥ 32 then row % 32 else row) = row % 32 := by
  split
  · rfl
  · rw [Nat.mod_eq_of_lt (by omega)]

/-- Pointwise description of the draw loop: each framebuffer row ends as
its old value XORed with the cumulative mask of the sprite bytes that land
on it. -/
theorem drawLoop_getD (x : Nat) :
    ∀ (sprite : List Nat) (row : Nat) (ov : Bool) (px : List Nat) (ρ : Nat), px.length = 32 →
      ((drawLoop x sprite row ov px).2).getD ρ 0 = px.getD ρ 0 ^^^ rowMasks x sprite row ρ
  | [], row, ov, px, ρ, _ => by simp [drawLoop, rowMasks]
  | b :: rest, row, ov, px, ρ, hpx => by
      simp only [drawLoop, rowMasks, rowRed]
      rw [drawLoop_getD x rest (row % 32 + 1) _ _ ρ (by simp [hpx])]
      rw [rowMasks_congr x ρ rest (row % 32 + 1) (row + 1) (by omega)]
      by_cases hρ : row % 32 = ρ
      · subst hρ
        rw [if_pos rfl, getD_set_self _ _ _ _ (by rw [hpx]; exact Nat.mod_lt _ (by omega))]
        rw [Nat.xor_assoc]
      · rw [if_neg hρ, getD_set_other _ _ _ _ _ hρ, Nat.zero_xor]

/-- Output bit i of a 64-bit rotate right is input bit (i + x) mod 64. -/
theorem rotr64_testBit (n x i : Nat) (hn : n < 2 ^ 64) (hi : i < 64) :
    (rotr64 n x).testBit i = n.testBit ((i + x % 64) % 64) := by
  unfold rotr64
  simp only
  have hs : x % 64 < 64 := Nat.mod_lt _ (by omega)
  rw [Nat.testBit_mod_two_pow, Nat.testBit_lor, Nat.testBit_shiftRight, Nat.testBit_shiftLeft]
  by_cases hcase : i + x % 64 < 64
  · have h1 : ¬(64 - x % 64 ≤ i) := by omega
    have h2 : (i + x % 64) % 64 = x % 64 + i := by omega
    simp [h1, h2, hi]
  · have h1 : 64 - x % 64 ≤ i := by omega
    have h2 : n.testBit (x % 64 + i) = false :=
      Nat.testBit_lt_two_pow (lt_of_lt_of_le hn (Nat.pow_le_pow_right (by omega) (by omega)))
    have h3 : i - (64 - x % 64) = (i + x % 64) % 64 := by omega
    simp [h1, h2, h3, hi]

/-- Column placement of a sprite byte: bit i from the most significant end
of the byte lands in the framebuffer word at the bit that the renderer
displays as column (x + i) mod 64 (the renderer shows bit 63 as column 0,
bit 63 − c as column c). -/
theorem spriteMask_testBit (b x i : Nat) (hb : b < 256) (hi : i < 8) :
    (spriteMask b x).testBit (63 - (x + i) % 64) = b.testBit (7 - i) := by
  unfold spriteMask
  have hn : (b % 256) <<< 56 < 2 ^ 64 := by
    rw [Nat.shiftLeft_eq]
    have h1 : b % 256 < 256 := Nat.mod_lt _ (by omega)
    calc b % 256 * 2 ^ 56 < 256 * 2 ^ 56 := (Nat.mul_lt_mul_right (by positivity)).mpr h1
      _ = 2 ^ 64 := by norm_num
  rw [rotr64_testBit _ _ _ hn (by omega)]
  rw [Nat.mod_eq_of_lt hb, Nat.testBit_shiftLeft]
  have hr : (x + i) % 64 = (x % 64 + i) % 64 := by omega
  have harg : (63 - (x + i) % 64 + x % 64) % 64 = 63 - i := by omega
  rw [harg]
  have h56 : 56 ≤ 63 - i := by omega
  rw [decide_eq_true h56, Bool.true_and]
  congr 1
  omega

/-- C4: draw_sprite XORs sprite byte r into framebuffer row (y + r) mod
32, row by row (`rowMasks` tests exactly (y + r) mod 32 = ρ), and within a
row the byte's bit i from the most significant end lands at column
(x + i) mod 64 — in particular the MSB at column x mod 64. -/
theorem C4_draw_sprite (x y : Nat) (sprite px : List Nat) (hpx : px.length = 32)
    (_hx : x < 256) (_hy : y < 256) :
    (∀ ρ, (drawSprite x y sprite px).2.getD ρ 0 = px.getD ρ 0 ^^^ rowMasks x sprite y ρ) ∧
    (∀ b i, b < 256 → i < 8 →
      (spriteMask b x).testBit (63 - (x + i) % 64) = b.testBit (7 - i)) :=
  ⟨fun ρ => drawLoop_getD x sprite y false px ρ hpx,
   fun b i hb hi => spriteMask_testBit b x i hb hi⟩

/-- Witness for C4 at the source's own test case: sprite [0xC3, 0x3C] at
(60, 31) on a blank screen; row 0 of the sprite lands on framebuffer row
31 and its MSB at column 60. -/
theorem C4_draw_sprite_witness :
    ((drawSprite 60 31 [0xC3, 0x3C] (List.replicate 32 0)).2.getD 31 0 =
      (List.replicate 32 (0 : Nat)).getD 31 0 ^^^ rowMasks 60 [0xC3, 0x3C] 31 31) ∧
    (spriteMask 0xC3 60).testBit (63 - (60 + 0) % 64) = (0xC3 : Nat).testBit 7 :=
  ⟨(C4_draw_sprite 60 31 [0xC3, 0x3C] (List.replicate 32 0) (by decide) (by decide)
      (by decide)).1 31,
   (C4_draw_sprite 60 31 [0xC3, 0x3C] (List.replicate 32 0) (by decide) (by decide)
      (by decide)).2 0xC3 0 (by decide) (by decide)⟩

/-! Claim C2: double draw.  Bit-set helper lemmas on Nat. -/

theorem land_self_bits (a : Nat) : a &&& a = a := by
  apply Nat.eq_of_testBit_eq
  intro i
  rw [Nat.testBit_land]
  cases a.testBit i <;> rfl

theorem land_absorb_step (a m : Nat) (h : a &&& (a ^^^ m) = a) : a &&& m = 0 := by
  apply Nat.eq_of_testBit_eq
  intro i
  have hi := congrArg (fun t => Nat.testBit t i) h
  simp only [Nat.testBit_land, Nat.testBit_xor] at hi
  rw [Nat.testBit_land, Nat.zero_testBit]
  revert hi
  cases a.testBit i <;> cases m.testBit i <;> decide

theorem subset_xor_of_disj (a m : Nat) (h : a &&& m = 0) : m &&& (a ^^^ m) = m := by
  apply Nat.eq_of_testBit_eq
  intro i
  have hi := congrArg (fun t => Nat.testBit t i) h
  simp only [Nat.testBit_land, Nat.zero_testBit] at hi
  rw [Nat.testBit_land, Nat.testBit_xor]
  revert hi
  cases a.testBit i <;> cases m.testBit i <;> decide

theorem subset_trans_bits (a b c : Nat) (hab : a &&& b = a) (hbc : b &&& c = b) :
    a &&& c = a := by
  calc a &&& c = (a &&& b) &&& c := by rw [hab]
    _ = a &&& (b &&& c) := Nat.land_assoc a b c
    _ = a &&& b := by rw [hbc]
    _ = a := hab

theorem exists_testBit_of_ne_zero (n : Nat) (h : n ≠ 0) : ∃ i, n.testBit i = true := by
  by_contra hc
  push_neg at hc
  exact h (Nat.eq_of_testBit_eq (fun i => by simp [hc i]))

theorem collision_of_subset (F m : Nat) (hm : m ≠ 0) (hsub : m &&& F = m) :
    F &&& (F ^^^ m) ≠ F := by
  obtain ⟨i, hi⟩ := exists_testBit_of_ne_zero m hm
  have hFi : F.testBit i = true := by
    have h1 := congrArg (fun t => Nat.testBit t i) hsub
    simp only [Nat.testBit_land, hi, Bool.true_and] at h1
    exact h1
  intro heq
  have h2 := congrArg (fun t => Nat.testBit t i) heq
  simp only [Nat.testBit_land, Nat.testBit_xor, hi, hFi] at h2
  exact absurd h2 (by decide)

theorem spriteMask_zero (x : Nat) : spriteMask 0 x = 0 := by
  simp [spriteMask, rotr64]

theorem spriteMask_ne_zero (b x : Nat) (hb : b < 256) (hb0 : b ≠ 0) : spriteMask b x ≠ 0 := by
  obtain ⟨j, hj⟩ := exists_testBit_of_ne_zero b hb0
  have hj8 : j < 8 := by
    by_contra hge
    push_neg at hge
    have h256 : (256 : Nat) = 2 ^ 8 := by norm_num
    have hf : b.testBit j = false := by
      refine Nat.testBit_lt_two_pow (lt_of_lt_of_le ?_ (Nat.pow_le_pow_right (by omega) hge))
      rw [← h256]
      exact hb
    rw [hf] at hj
    exact Bool.noConfusion hj
  have hbit := spriteMask_testBit b x (7 - j) hb (by omega)
  have h7 : 7 - (7 - j) = j := by omega
  rw [h7, hj] at hbit
  intro h0
  rw [h0, Nat.zero_testBit] at hbit
  exact Bool.noConfusion hbit

theorem drawLoop_length (x : Nat) :
    ∀ (sprite : List Nat) (row : Nat) (ov : Bool) (px : List Nat),
      ((drawLoop x sprite row ov px).2).length = px.length
  | [], _, _, _ => rfl
  | b :: rest, row, ov, px => by
      simp only [drawLoop]
      rw [drawLoop_length x rest _ _ _]
      exact List.length_set ..

theorem drawLoop_true (x : Nat) :
    ∀ (sprite : List Nat) (row : Nat) (px : List Nat), (drawLoop x sprite row true px).1 = true
  | [], _, _ => rfl
  | b :: rest, row, px => by
      simp only [drawLoop, Bool.true_or]
      exact drawLoop_true x rest _ _

theorem drawLoop_false_ov (x : Nat) (sprite : List Nat) (row : Nat) (px : List Nat) (ov : Bool)
    (h : (drawLoop x sprite row ov px).1 = false) : ov = false := by
  cases ov
  · rfl
  · rw [drawLoop_true x sprite row px] at h
    exact h

/-- If a draw pass reports no collision, it only ever turns pixels on:
every initially set bit of every row is still set afterwards. -/
theorem drawLoop_grow (x : Nat) :
    ∀ (sprite : List Nat) (row : Nat) (px : List Nat), px.length = 32 →
      (drawLoop x sprite row false px).1 = false →
      ∀ ρ, px.getD ρ 0 &&& ((drawLoop x sprite row false px).2).getD ρ 0 = px.getD ρ 0
  | [], row, px, _, _, ρ => by simp [drawLoop, land_self_bits]
  | b :: rest, row, px, hpx, h, ρ => by
      simp only [drawLoop, rowRed, Bool.false_or] at h ⊢
      have hov := drawLoop_false_ov x rest _ _ _ h
      rw [hov] at h ⊢
      have hstep : px.getD (row % 32) 0 &&&
          (px.getD (row % 32) 0 ^^^ spriteMask b x) = px.getD (row % 32) 0 :=
        not_not.mp (of_decide_eq_false hov)
      have IH := drawLoop_grow x rest (row % 32 + 1)
        (px.set (row % 32) (px.getD (row % 32) 0 ^^^ spriteMask b x)) (by simp [hpx]) h
      by_cases hρ : row % 32 = ρ
      · subst hρ
        have IH1 := IH (row % 32)
        rw [getD_set_self _ _ _ _ (by rw [hpx]; exact Nat.mod_lt _ (by omega))] at IH1
        exact subset_trans_bits _ _ _ hstep IH1
      · have IH1 := IH ρ
        rw [getD_set_other _ _ _ _ _ hρ] at IH1
        exact IH1

/-- One unfolding step of the draw loop. -/
theorem drawLoop_cons (x b row : Nat) (rest : List Nat) (ov : Bool) (px : List Nat) :
    drawLoop x (b :: rest) row ov px =
      drawLoop x rest (row % 32 + 1)
        (ov || decide (px.getD (row % 32) 0 &&&
          (px.getD (row % 32) 0 ^^^ spriteMask b x) ≠ px.getD (row % 32) 0))
        (px.set (row % 32) (px.getD (row % 32) 0 ^^^ spriteMask b x)) := by
  simp only [drawLoop, rowRed]

theorem decide_ne_self_false (t : Nat) : decide (t ≠ t) = false := by simp

/-- If a first draw pass reports no collision and the sprite has a nonzero
byte, redrawing the same sprite at the same position reports a
collision: the second pass erases pixels the first pass set. -/
theorem drawLoop_second (x : Nat) :
    ∀ (sprite : List Nat) (row : Nat) (px : List Nat), px.length = 32 →
      (∀ b ∈ sprite, b < 256) →
      (drawLoop x sprite row false px).1 = false →
      (∃ b ∈ sprite, b ≠ 0) →
      (drawLoop x sprite row false (drawLoop x sprite row false px).2).1 = true
  | [], _, _, _, _, _, hex => by simp at hex
  | b :: rest, row, px, hpx, hbytes, hnc, hex => by
      have hrowlt : row % 32 < px.length := by
        rw [hpx]
        exact Nat.mod_lt _ (by omega)
      by_cases hb0 : b = 0
      · subst hb0
        rw [drawLoop_cons, spriteMask_zero, Nat.xor_zero, land_self_bits, Bool.false_or,
          decide_ne_self_false, set_getD_self _ _ _ hrowlt] at hnc
        have hP : (drawLoop x (0 :: rest) row false px).2 =
            (drawLoop x rest (row % 32 + 1) false px).2 := by
          rw [drawLoop_cons, spriteMask_zero, Nat.xor_zero, land_self_bits, Bool.false_or,
            decide_ne_self_false, set_getD_self _ _ _ hrowlt]
        have hlen2 : ((drawLoop x rest (row % 32 + 1) false px).2).length = 32 := by
          rw [drawLoop_length]
          exact hpx
        rw [hP, drawLoop_cons, spriteMask_zero, Nat.xor_zero, land_self_bits, Bool.false_or,
          decide_ne_self_false,
          set_getD_self _ _ _ (by rw [hlen2]; exact Nat.mod_lt _ (by omega))]
        refine drawLoop_second x rest (row % 32 + 1) px hpx
          (fun bb hbb => hbytes bb (by simp [hbb])) hnc ?_
        rcases hex with ⟨bb, hmem, hbb⟩
        rcases List.mem_cons.mp hmem with h1 | h1
        · exact absurd h1 hbb
        · exact ⟨bb, h1, hbb⟩
      · have hb256 : b < 256 := hbytes b (by simp)
        rw [drawLoop_cons, Bool.false_or] at hnc
        have hov := drawLoop_false_ov x rest _ _ _ hnc
        rw [hov] at hnc
        have hstep : px.getD (row % 32) 0 &&&
            (px.getD (row % 32) 0 ^^^ spriteMask b x) = px.getD (row % 32) 0 :=
          not_not.mp (of_decide_eq_false hov)
        have hdisj := land_absorb_step _ _ hstep
        have hsubnew := subset_xor_of_disj _ _ hdisj
        have hgrow := drawLoop_grow x rest (row % 32 + 1)
          (px.set (row % 32) (px.getD (row % 32) 0 ^^^ spriteMask b x)) (by simp [hpx]) hnc
          (row % 32)
        rw [getD_set_self _ _ _ _ hrowlt] at hgrow
        have hsubF := subset_trans_bits _ _ _ hsubnew hgrow
        have hcol := collision_of_subset _ _ (spriteMask_ne_zero b x hb256 hb0) hsubF
        have hP : (drawLoop x (b :: rest) row false px).2 =
            (drawLoop x rest (row % 32 + 1) false
              (px.set (row % 32) (px.getD (row % 32) 0 ^^^ spriteMask b x))).2 := by
          rw [drawLoop_cons, Bool.false_or, hov]
        rw [hP, drawLoop_cons, Bool.false_or, decide_eq_true hcol]
        exact drawLoop_true x rest _ _

/-- C2 counterexample: on a blank screen, drawing the one-byte sprite 0x80
at (0,0) returns collision 0, but the second identical call returns 1
(it erases the pixel the first call set), not the 0 the claim requires. -/
theorem C2_counterexample :
    (drawSprite 0 0 [128] (List.replicate 32 0)).1 = 0 ∧
      (drawSprite 0 0 [128] (drawSprite 0 0 [128] (List.replicate 32 0)).2).1 = 1 := by
  decide

/-- C2 (amended): drawing the same sprite twice at the same coordinates
restores every pixel to its state before the first call; but the second
call reports collision 1, not 0, whenever the first call reported 0 and
the sprite has a nonzero byte (the second call turns the sprite's own
pixels off). -/
theorem C2_draw_twice (x y : Nat) (sprite px : List Nat) (hpx : px.length = 32)
    (hbytes : ∀ b ∈ sprite, b < 256) :
    (∀ ρ, (drawSprite x y sprite (drawSprite x y sprite px).2).2.getD ρ 0 = px.getD ρ 0) ∧
    ((drawSprite x y sprite px).1 = 0 → (∃ b ∈ sprite, b ≠ 0) →
      (drawSprite x y sprite (drawSprite x y sprite px).2).1 = 1) := by
  constructor
  · intro ρ
    have hlen : ((drawLoop x sprite y false px).2).length = 32 := by
      rw [drawLoop_length]
      exact hpx
    have h1 := drawLoop_getD x sprite y false px ρ hpx
    have h2 := drawLoop_getD x sprite y false (drawLoop x sprite y false px).2 ρ hlen
    simp only [drawSprite]
    rw [h2, h1, Nat.xor_assoc, Nat.xor_self, Nat.xor_zero]
  · intro hflag hex
    have hloop : (drawLoop x sprite y false px).1 = false := by
      by_contra hc
      have hc' : (drawLoop x sprite y false px).1 = true := by
        cases hfoo : (drawLoop x sprite y false px).1
        · exact absurd hfoo hc
        · rfl
      simp only [drawSprite, hc', reduceIte] at hflag
      exact absurd hflag (by decide)
    have h2 := drawLoop_second x sprite y px hpx hbytes hloop hex
    simp only [drawSprite, h2, reduceIte]

/-- Witness for C2: sprite [0xFF] at (3,5); the double draw restores row 5
and, the first call having returned 0, the second returns 1. -/
theorem C2_draw_twice_witness :
    (drawSprite 3 5 [255] (drawSprite 3 5 [255] (List.replicate 32 0)).2).2.getD 5 0 =
      (List.replicate 32 (0 : Nat)).getD 5 0 ∧
    (drawSprite 3 5 [255] (drawSprite 3 5 [255] (List.replicate 32 0)).2).1 = 1 :=
  ⟨(C2_draw_twice 3 5 [255] (List.replicate 32 0) (by decide) (by decide)).1 5,
   (C2_draw_twice 3 5 [255] (List.replicate 32 0) (by decide) (by decide)).2
     (by decide) ⟨255, by decide, by decide⟩⟩

/-! Claim C8: fatal decode errors.  `recognized` and `failCond` mirror the
guard chain of `executeInstruction` arm for arm. -/

/-- An instruction pattern is recognized iff some arm of the dispatch
other than the final abort arm matches it. -/
def recognized (inst : Instruction) : Bool :=
  let (o, a, b, c) := inst
  if o = 0 ∧ a = 0 ∧ b = 0xE ∧ c = 0 then true
  else if o = 0 ∧ a = 0 ∧ b = 0xE ∧ c = 0xE then true
  else if o = 1 then true
  else if o = 2 then true
  else if o = 3 then true
  else if o = 4 then true
  else if o = 5 ∧ c = 0 then true
  else if o = 6 then true
  else if o = 7 then true
  else if o = 8 ∧ c = 0 then true
  else if o = 8 ∧ c = 1 then true
  else if o = 8 ∧ c = 2 then true
  else if o = 8 ∧ c = 3 then true
  else if o = 8 ∧ c = 4 then true
  else if o = 8 ∧ c = 5 then true
  else if o = 8 ∧ c = 6 then true
  else if o = 8 ∧ c = 7 then true
  else if o = 8 ∧ c = 0xE then true
  else if o = 9 ∧ c = 0 then true
  else if o = 0xA then true
  else if o = 0xB then true
  else if o = 0xC then true
  else if o = 0xD then true
  else if o = 0xE ∧ b = 9 ∧ c = 0xE then true
  else if o = 0xE ∧ b = 0xA ∧ c = 1 then true
  else if o = 0xF ∧ b = 0 ∧ c = 7 then true
  else if o = 0xF ∧ b = 0 ∧ c = 0xA then true
  else if o = 0xF ∧ b = 1 ∧ c = 5 then true
  else if o = 0xF ∧ b = 1 ∧ c = 8 then true
  else if o = 0xF ∧ b = 1 ∧ c = 0xE then true
  else if o = 0xF ∧ b = 2 ∧ c = 9 then true
  else if o = 0xF ∧ b = 3 ∧ c = 3 then true
  else if o = 0xF ∧ b = 5 ∧ c = 5 then true
  else if o = 0xF ∧ b = 6 ∧ c = 5 then true
  else if o = 0 then true
  else false

/-- The out-of-bounds abort condition of each recognized arm: RET with a
wrapped stack index out of range, CALL with SP past the stack, DRW reading
a sprite past the end of memory, and the BCD/register-block transfers
writing or reading past the end of memory.  All other arms are total. -/
def failCond (inst : Instruction) (s : CPU) : Prop :=
  let (o, a, b, c) := inst
  if o = 0 ∧ a = 0 ∧ b = 0xE ∧ c = 0 then False
  else if o = 0 ∧ a = 0 ∧ b = 0xE ∧ c = 0xE then ¬(wsub8 s.sp 1 < s.stack.length)
  else if o = 1 then False
  else if o = 2 then ¬(s.sp < s.stack.length)
  else if o = 3 then False
  else if o = 4 then False
  else if o = 5 ∧ c = 0 then False
  else if o = 6 then False
  else if o = 7 then False
  else if o = 8 ∧ c = 0 then False
  else if o = 8 ∧ c = 1 then False
  else if o = 8 ∧ c = 2 then False
  else if o = 8 ∧ c = 3 then False
  else if o = 8 ∧ c = 4 then False
  else if o = 8 ∧ c = 5 then False
  else if o = 8 ∧ c = 6 then False
  else if o = 8 ∧ c = 7 then False
  else if o = 8 ∧ c = 0xE then False
  else if o = 9 ∧ c = 0 then False
  else if o = 0xA then False
  else if o = 0xB then False
  else if o = 0xC then False
  else if o = 0xD then ¬(s.i + c ≤ s.memory.length)
  else if o = 0xE ∧ b = 9 ∧ c = 0xE then False
  else if o = 0xE ∧ b = 0xA ∧ c = 1 then False
  else if o = 0xF ∧ b = 0 ∧ c = 7 then False
  else if o = 0xF ∧ b = 0 ∧ c = 0xA then False
  else if o = 0xF ∧ b = 1 ∧ c = 5 then False
  else if o = 0xF ∧ b = 1 ∧ c = 8 then False
  else if o = 0xF ∧ b = 1 ∧ c = 0xE then False
  else if o = 0xF ∧ b = 2 ∧ c = 9 then False
  else if o = 0xF ∧ b = 3 ∧ c = 3 then ¬(s.i + 2 < s.memory.length)
  else if o = 0xF ∧ b = 5 ∧ c = 5 then ¬(s.i + a < s.memory.length)
  else if o = 0xF ∧ b = 6 ∧ c = 5 then ¬(s.i + a < s.memory.length)
  else if o = 0 then False
  else False

theorem ret_none_iff (s : CPU) : ret s = none ↔ ¬(wsub8 s.sp 1 < s.stack.length) := by
  simp only [ret]
  cases hg : s.stack.get? (wsub8 s.sp 1) with
  | none =>
      have hle := List.get?_eq_none.mp hg
      constructor
      · intro _ hlt
        omega
      · intro _
        rfl
  | some v =>
      have hlt : wsub8 s.sp 1 < s.stack.length := by
        by_contra hge
        rw [List.get?_eq_none.mpr (by omega)] at hg
        exact Option.noConfusion hg
      constructor
      · intro hnone
        exact Option.noConfusion hnone
      · intro hcontra
        exact absurd hlt hcontra

theorem callAddr_none_iff (a b c : Nat) (s : CPU) :
    callAddr a b c s = none ↔ ¬(s.sp < s.stack.length) := by
  unfold callAddr setMem
  by_cases h : s.sp < s.stack.length
  · simp [h]
  · simp [h]

theorem ldBVx_none_iff (x : Nat) (s : CPU) :
    ldBVx x s = none ↔ ¬(s.i + 2 < s.memory.length) := by
  unfold ldBVx setMem
  simp only [List.length_set]
  by_cases h1 : s.i < s.memory.length
  · by_cases h2 : s.i + 1 < s.memory.length
    · by_cases h3 : s.i + 2 < s.memory.length
      · simp [h1, h2, h3]
      · simp [h1, h2, h3]
    · have h3 : ¬(s.i + 2 < s.memory.length) := by omega
      simp [h1, h2, h3]
  · have h3 : ¬(s.i + 2 < s.memory.length) := by omega
    simp [h1, h3]

theorem storeRegsAux_none_iff (v : List Nat) (base : Nat) :
    ∀ (count j : Nat) (mem : List Nat),
      storeRegsAux v base j count mem = none ↔ 0 < count ∧ mem.length < base + j + count
  | 0, j, mem => by simp [storeRegsAux]
  | count + 1, j, mem => by
      unfold storeRegsAux setMem
      by_cases h : base + j < mem.length
      · rw [if_pos h]
        show storeRegsAux v base (j + 1) count (mem.set (base + j) (v.getD j 0)) = none ↔ _
        rw [storeRegsAux_none_iff v base count (j + 1) _]
        simp only [List.length_set]
        omega
      · rw [if_neg h]
        constructor
        · intro _
          omega
        · intro _
          rfl

theorem loadRegsAux_none_iff (mem : List Nat) (base : Nat) :
    ∀ (count j : Nat) (v : List Nat),
      loadRegsAux mem base j count v = none ↔ 0 < count ∧ mem.length < base + j + count
  | 0, j, v => by simp [loadRegsAux]
  | count + 1, j, v => by
      unfold loadRegsAux
      cases hg : mem.get? (base + j) with
      | none =>
          have hle := List.get?_eq_none.mp hg
          constructor
          · intro _
            omega
          · intro _
            rfl
      | some bb =>
          have hlt : base + j < mem.length := by
            by_contra hge
            rw [List.get?_eq_none.mpr (by omega)] at hg
            exact Option.noConfusion hg
          show loadRegsAux mem base (j + 1) count (v.set j bb) = none ↔ _
          rw [loadRegsAux_none_iff mem base count (j + 1) _]
          omega

theorem ldIVx_none_iff (x : Nat) (s : CPU) :
    ldIVx x s = none ↔ ¬(s.i + x < s.memory.length) := by
  have hbind : (ldIVx x s = none) ↔ (storeRegsAux s.v s.i 0 (x + 1) s.memory = none) := by
    unfold ldIVx
    cases hs : storeRegsAux s.v s.i 0 (x + 1) s.memory <;> simp [hs]
  rw [hbind, storeRegsAux_none_iff]
  omega

theorem ldVxI_none_iff (x : Nat) (s : CPU) :
    ldVxI x s = none ↔ ¬(s.i + x < s.memory.length) := by
  have hbind : (ldVxI x s = none) ↔ (loadRegsAux s.memory s.i 0 (x + 1) s.v = none) := by
    unfold ldVxI
    cases hs : loadRegsAux s.memory s.i 0 (x + 1) s.v <;> simp [hs]
  rw [hbind, loadRegsAux_none_iff]
  omega

/-- A full-size memory with I = 4095, about to draw a 2-row sprite. -/
def drwOobState : CPU :=
  { memory := List.replicate 4096 0, stack := [], v := List.replicate 16 0, i := 4095,
    dt := 0, st := 0, pc := 0x200, sp := 0, pixels := List.replicate 32 0,
    unprocessed := [], stream := [], rng := [] }

/-- C8 counterexample: DRW (Dxyn) is a recognized opcode, yet with
I = 4095 and n = 2 the sprite slice memory[4095..4097] runs past the end
of the 4096-byte memory and the run aborts — so fatal termination is not
limited to unrecognized bit patterns. -/
theorem C8_counterexample :
    recognized (13, 0, 0, 2) = true ∧ executeInstruction (13, 0, 0, 2) drwOobState = none := by
  constructor
  · decide
  · simp only [executeInstruction, Nat.reduceEqDiff, reduceIte, false_and, and_false, true_and,
      and_true, and_self]
    rw [if_neg]
    simp only [drwOobState, List.length_replicate]
    omega

set_option maxHeartbeats 2000000 in
/-- C8 (amended): executeInstruction aborts the run exactly when the
instruction pattern is unrecognized or a recognized instruction touches
the stack or memory out of bounds (CALL with SP past the stack, RET with
the wrapped SP − 1 out of range, DRW reading a sprite past the end of
memory, Fx33/Fx55/Fx65 writing or reading past the end of memory); every
0nnn pattern other than 00E0/00EE is a no-op whose only effect is
advancing PC by 2; arithmetic never aborts — in this model it wraps. -/
theorem C8_fatal_decode (inst : Instruction) (s : CPU) :
    (executeInstruction inst s = none ↔ recognized inst = false ∨ failCond inst s) ∧
    (∀ a b c, inst = (0, a, b, c) → ¬(a = 0 ∧ b = 0xE ∧ c = 0) → ¬(a = 0 ∧ b = 0xE ∧ c = 0xE) →
      executeInstruction inst s = some { s with pc := (s.pc + 2) % 65536 }) := by
  constructor
  · obtain ⟨o, a, b, c⟩ := inst
    simp only [executeInstruction, recognized, failCond]
    by_cases h1 : o = 0 ∧ a = 0 ∧ b = 0xE ∧ c = 0
    · rw [if_pos h1, if_pos h1, if_pos h1]
      simp
    rw [if_neg h1, if_neg h1, if_neg h1]
    by_cases h2 : o = 0 ∧ a = 0 ∧ b = 0xE ∧ c = 0xE
    · rw [if_pos h2, if_pos h2, if_pos h2]
      simp [ret_none_iff]
    rw [if_neg h2, if_neg h2, if_neg h2]
    by_cases h3 : o = 1
    · rw [if_pos h3, if_pos h3, if_pos h3]
      simp
    rw [if_neg h3, if_neg h3, if_neg h3]
    by_cases h4 : o = 2
    · rw [if_pos h4, if_pos h4, if_pos h4]
      simp [callAddr_none_iff]
    rw [if_neg h4, if_neg h4, if_neg h4]
    by_cases h5 : o = 3
    · rw [if_pos h5, if_pos h5, if_pos h5]
      simp
    rw [if_neg h5, if_neg h5, if_neg h5]
    by_cases h6 : o = 4
    · rw [if_pos h6, if_pos h6, if_pos h6]
      simp
    rw [if_neg h6, if_neg h6, if_neg h6]
    by_cases h7 : o = 5 ∧ c = 0
    · rw [if_pos h7, if_pos h7, if_pos h7]
      simp
    rw [if_neg h7, if_neg h7, if_neg h7]
    by_cases h8 : o = 6
    · rw [if_pos h8, if_pos h8, if_pos h8]
      simp
    rw [if_neg h8, if_neg h8, if_neg h8]
    by_cases h9 : o = 7
    · rw [if_pos h9, if_pos h9, if_pos h9]
      simp
    rw [if_neg h9, if_neg h9, if_neg h9]
    by_cases h10 : o = 8 ∧ c = 0
    · rw [if_pos h10, if_pos h10, if_pos h10]
      simp
    rw [if_neg h10, if_neg h10, if_neg h10]
    by_cases h11 : o = 8 ∧ c = 1
    · rw [if_pos h11, if_pos h11, if_pos h11]
      simp
    rw [if_neg h11, if_neg h11, if_neg h11]
    by_cases h12 : o = 8 ∧ c = 2
    · rw [if_pos h12, if_pos h12, if_pos h12]
      simp
    rw [if_neg h12, if_neg h12, if_neg h12]
    by_cases h13 : o = 8 ∧ c = 3
    · rw [if_pos h13, if_pos h13, if_pos h13]
      simp
    rw [if_neg h13, if_neg h13, if_neg h13]
    by_cases h14 : o = 8 ∧ c = 4
    · rw [if_pos h14, if_pos h14, if_pos h14]
      simp
    rw [if_neg h14, if_neg h14, if_neg h14]
    by_cases h15 : o = 8 ∧ c = 5
    · rw [if_pos h15, if_pos h15, if_pos h15]
      simp
    rw [if_neg h15, if_neg h15, if_neg h15]
    by_cases h16 : o = 8 ∧ c = 6
    · rw [if_pos h16, if_pos h16, if_pos h16]
      simp
    rw [if_neg h16, if_neg h16, if_neg h16]
    by_cases h17 : o = 8 ∧ c = 7
    · rw [if_pos h17, if_pos h17, if_pos h17]
      simp
    rw [if_neg h17, if_neg h17, if_neg h17]
    by_cases h18 : o = 8 ∧ c = 0xE
    · rw [if_pos h18, if_pos h18, if_pos h18]
      simp
    rw [if_neg h18, if_neg h18, if_neg h18]
    by_cases h19 : o = 9 ∧ c = 0
    · rw [if_pos h19, if_pos h19, if_pos h19]
      simp
    rw [if_neg h19, if_neg h19, if_neg h19]
    by_cases h20 : o = 0xA
    · rw [if_pos h20, if_pos h20, if_pos h20]
      simp
    rw [if_neg h20, if_neg h20, if_neg h20]
    by_cases h21 : o = 0xB
    · rw [if_pos h21, if_pos h21, if_pos h21]
      simp
    rw [if_neg h21, if_neg h21, if_neg h21]
    by_cases h22 : o = 0xC
    · rw [if_pos h22, if_pos h22, if_pos h22]
      simp
    rw [if_neg h22, if_neg h22, if_neg h22]
    by_cases h23 : o = 0xD
    · rw [if_pos h23, if_pos h23, if_pos h23]
      split <;> simp_all
    rw [if_neg h23, if_neg h23, if_neg h23]
    by_cases h24 : o = 0xE ∧ b = 9 ∧ c = 0xE
    · rw [if_pos h24, if_pos h24, if_pos h24]
      simp
    rw [if_neg h24, if_neg h24, if_neg h24]
    by_cases h25 : o = 0xE ∧ b = 0xA ∧ c = 1
    · rw [if_pos h25, if_pos h25, if_pos h25]
      simp
    rw [if_neg h25, if_neg h25, if_neg h25]
    by_cases h26 : o = 0xF ∧ b = 0 ∧ c = 7
    · rw [if_pos h26, if_pos h26, if_pos h26]
      simp
    rw [if_neg h26, if_neg h26, if_neg h26]
    by_cases h27 : o = 0xF ∧ b = 0 ∧ c = 0xA
    · rw [if_pos h27, if_pos h27, if_pos h27]
      split <;> simp_all
    rw [if_neg h27, if_neg h27, if_neg h27]
    by_cases h28 : o = 0xF ∧ b = 1 ∧ c = 5
    · rw [if_pos h28, if_pos h28, if_pos h28]
      simp
    rw [if_neg h28, if_neg h28, if_neg h28]
    by_cases h29 : o = 0xF ∧ b = 1 ∧ c = 8
    · rw [if_pos h29, if_pos h29, if_pos h29]
      simp
    rw [if_neg h29, if_neg h29, if_neg h29]
    by_cases h30 : o = 0xF ∧ b = 1 ∧ c = 0xE
    · rw [if_pos h30, if_pos h30, if_pos h30]
      simp
    rw [if_neg h30, if_neg h30, if_neg h30]
    by_cases h31 : o = 0xF ∧ b = 2 ∧ c = 9
    · rw [if_pos h31, if_pos h31, if_pos h31]
      simp
    rw [if_neg h31, if_neg h31, if_neg h31]
    by_cases h32 : o = 0xF ∧ b = 3 ∧ c = 3
    · rw [if_pos h32, if_pos h32, if_pos h32]
      simp [ldBVx_none_iff]
    rw [if_neg h32, if_neg h32, if_neg h32]
    by_cases h33 : o = 0xF ∧ b = 5 ∧ c = 5
    · rw [if_pos h33, if_pos h33, if_pos h33]
      simp [ldIVx_none_iff]
    rw [if_neg h33, if_neg h33, if_neg h33]
    by_cases h34 : o = 0xF ∧ b = 6 ∧ c = 5
    · rw [if_pos h34, if_pos h34, if_pos h34]
      simp [ldVxI_none_iff]
    rw [if_neg h34, if_neg h34, if_neg h34]
    by_cases h35 : o = 0
    · rw [if_pos h35, if_pos h35, if_pos h35]
      simp
    rw [if_neg h35, if_neg h35, if_neg h35]
    simp
  · rintro a b c rfl h1 h2
    simp only [executeInstruction, h1, h2, Nat.reduceEqDiff, reduceIte, false_and, and_false,
      true_and, and_true, and_self, if_false]

/-- A small state for exercising the SYS no-op and an unrecognized
pattern. -/
def noopState : CPU :=
  { memory := [], stack := [], v := [], i := 0, dt := 0, st := 0, pc := 0x200, sp := 0,
    pixels := [], unprocessed := [], stream := [], rng := [] }

/-- Witness for C8: SYS pattern 0123 is a pure PC+2 no-op, and the iff
instantiates at the unrecognized pattern 5123. -/
theorem C8_fatal_decode_witness :
    executeInstruction (0, 1, 2, 3) noopState =
      some { noopState with pc := (noopState.pc + 2) % 65536 } ∧
    (executeInstruction (5, 1, 2, 3) noopState = none ↔
      recognized (5, 1, 2, 3) = false ∨ failCond (5, 1, 2, 3) noopState) :=
  ⟨(C8_fatal_decode (0, 1, 2, 3) noopState).2 1 2 3 rfl (by decide) (by decide),
   (C8_fatal_decode (5, 1, 2, 3) noopState).1⟩
